import Mathlib

/-! Shallow embedding of the two CosmWasm contracts of this repository:

* `src/contract.rs` — a custom fungible-token contract (namespace `Token`):
  instantiate, fee-skimming transfer / transfer_from, owner-gated burn,
  cooldown-gated mint, and governance entry points.
* `src/lib.rs` — a token factory contract (namespace `Factory`):
  instantiate, create_token, mint, transfer, set_mint_enabled,
  lock_ownership.

Modelling conventions:

* Validated addresses are plain strings (`Addr`); `deps.api.addr_validate`
  is the identity on already-valid addresses, which is the only case the
  claims exercise.
* `Uint128` values are natural numbers together with explicit `< 2 ^ 128`
  bounds where the Rust code checks them: `checked_add` / `checked_sub`
  become `Option`-valued operations, while the unchecked `+` / `+=` / `-`
  operators of `Uint128` (which abort the call on overflow) are modelled
  by a distinguished `trap` outcome.
* `Decimal` values are represented by their atomics (`DEC_ONE = 10 ^ 18`
  atomics equal one); `Uint128 * Decimal` is `multiply_ratio`, i.e. a
  floor division, trapping when the quotient does not fit in 128 bits.
* Storage is embedded in a state record; `Map` reads with
  `unwrap_or_default` become total functions, `may_load`-style maps become
  `Option`-valued functions, and an `Item` that may be absent is an
  `Option` field.
* Each Rust handler becomes a function `… → State → Res` where `Res`
  records success, a typed error, or a trap, together with the raw storage
  state reached at that point (mutations are applied sequentially, exactly
  in source order, so a typed error can carry a partially mutated state).
  The host's transactional call boundary, which discards partial state on
  error, is `hostCall`.
* Timestamps are nanoseconds (`Timestamp` stores nanoseconds and
  `plus_seconds` adds `seconds * 10 ^ 9`).
-/

abbrev Addr := String

def UMAX : Nat := 2 ^ 128

def DEC_ONE : Nat := 10 ^ 18

def NANOS_PER_SECOND : Nat := 1000000000

/-- Embeds `Uint128::checked_add`. -/
def checkedAdd (a b : Nat) : Option Nat :=
  if a + b < UMAX then some (a + b) else none

/-- Embeds `Uint128::checked_sub`. -/
def checkedSub (a b : Nat) : Option Nat :=
  if b ≤ a then some (a - b) else none

/-- The `cosmwasm_std::StdError` variants this code produces. -/
inductive StdErr where
  | notFound
  | overflowAdd
  | overflowSub
  | genericErr (msg : String)
deriving DecidableEq

namespace Token

/-- Embeds `Config` of src/contract.rs; `fee_percent` is stored as Decimal atomics. -/
structure Config where
  mint_interval_seconds : Nat
  fee_percent : Nat
  fee_receiver : Addr
  immutable_mode : Bool
  mint_enabled : Bool
  mint_amount : Nat
  owner : Addr

/-- Embeds `TokenInfo` of src/contract.rs. -/
structure TokenInfo where
  name : String
  symbol : String
  decimals : Nat
  total_supply : Nat

/-- Embeds `AllowanceResponse` of src/contract.rs. -/
structure AllowanceResponse where
  allowance : Nat
  expires : Nat

/-- The token contract's storage: CONFIG, TOKEN_INFO, BALANCES,
ALLOWANCES, MINT_INFO (last_mint_time in nanoseconds), TOTAL_BURNED. -/
structure TState where
  config : Config
  token_info : TokenInfo
  balances : Addr → Nat
  allowances : Addr × Addr → AllowanceResponse
  mint_info : Addr → Option Nat
  total_burned : Nat

/-- Outcome of running a handler directly against storage: success, a
typed error, or an aborting trap; the carried state is the raw storage
content at that point (possibly partially mutated on `err`/`trap`). -/
inductive TRes where
  | ok (s : TState)
  | err (e : StdErr) (s : TState)
  | trap (s : TState)

def TRes.isOk : TRes → Bool
  | .ok _ => true
  | _ => false

def TRes.isErr : TRes → Bool
  | .err _ _ => true
  | _ => false

def TRes.isTrap : TRes → Bool
  | .trap _ => true
  | _ => false

def TRes.stateOf : TRes → TState
  | .ok s => s
  | .err _ s => s
  | .trap s => s

/-- The host's transactional execute boundary: on error or trap the
storage changes of the call are discarded. -/
def hostCall (f : TState → TRes) (s : TState) : TRes :=
  match f s with
  | .ok s' => .ok s'
  | .err e _ => .err e s
  | .trap _ => .trap s

/-- Embeds `instantiate` of src/contract.rs: validates the owner (defaulting to
the sender), stores the fixed Config (24h mint interval, 1% fee,
mint amount 4 * 10^17), zero TOTAL_BURNED, the token info, and credits the
whole initial supply to the owner. -/
def instantiate (sender : Addr) (ownerOpt : Option Addr) (fee_receiver : Addr)
    (name symbol : String) (decimals initial_supply : Nat) : TState :=
  { config :=
      { mint_interval_seconds := 24 * 60 * 60
        fee_percent := 10 ^ 16
        fee_receiver := fee_receiver
        immutable_mode := false
        mint_enabled := false
        mint_amount := 400000000000000000
        owner := ownerOpt.getD sender }
    token_info :=
      { name := name, symbol := symbol, decimals := decimals
        total_supply := initial_supply }
    balances := Function.update (fun _ => 0) (ownerOpt.getD sender) initial_supply
    allowances := fun _ => { allowance := 0, expires := 0 }
    mint_info := fun _ => none
    total_burned := 0 }

/-- Embeds `amount * config.fee_percent` as computed on line 156 of
src/contract.rs: `Uint128 * Decimal` is `multiply_ratio(atomics, 10^18)`,
a floor division. -/
def feeOf (s : TState) (amount : Nat) : Nat :=
  amount * s.config.fee_percent / DEC_ONE

/-- Embeds `execute_transfer` of src/contract.rs: compute fee and net, then
sequentially debit the sender by the full amount (checked), credit the
recipient by net (checked), credit the fee receiver by the fee (checked).
The `Uint128 * Decimal` multiply traps when its result exceeds 128 bits. -/
def execute_transfer (sender recipient : Addr) (amount : Nat) (s : TState) : TRes :=
  if UMAX ≤ feeOf s amount then .trap s
  else
    match checkedSub amount (feeOf s amount) with
    | none => .err .overflowSub s
    | some net =>
      match checkedSub (s.balances sender) amount with
      | none => .err .overflowSub s
      | some sb =>
        let s1 : TState := { s with balances := Function.update s.balances sender sb }
        match checkedAdd (s1.balances recipient) net with
        | none => .err .overflowAdd s1
        | some rb =>
          let s2 : TState := { s1 with balances := Function.update s1.balances recipient rb }
          match checkedAdd (s2.balances s.config.fee_receiver) (feeOf s amount) with
          | none => .err .overflowAdd s2
          | some fb =>
            .ok { s2 with balances := Function.update s2.balances s.config.fee_receiver fb }

/-- Embeds `execute_transfer_from` of src/contract.rs: additionally decrements
the (owner, spender) allowance (checked) before the same three-way
debit/credit sequence against the owner's balance. -/
def execute_transfer_from (sender owner recipient : Addr) (amount : Nat) (s : TState) : TRes :=
  if UMAX ≤ feeOf s amount then .trap s
  else
    match checkedSub amount (feeOf s amount) with
    | none => .err .overflowSub s
    | some net =>
      match checkedSub (s.allowances (owner, sender)).allowance amount with
      | none => .err .overflowSub s
      | some rem =>
        let al1 : AllowanceResponse := { s.allowances (owner, sender) with allowance := rem }
        let s1 : TState := { s with allowances := Function.update s.allowances (owner, sender) al1 }
        match checkedSub (s1.balances owner) amount with
        | none => .err .overflowSub s1
        | some ob =>
          let s2 : TState := { s1 with balances := Function.update s1.balances owner ob }
          match checkedAdd (s2.balances recipient) net with
          | none => .err .overflowAdd s2
          | some rb =>
            let s3 : TState := { s2 with balances := Function.update s2.balances recipient rb }
            match checkedAdd (s3.balances s.config.fee_receiver) (feeOf s amount) with
            | none => .err .overflowAdd s3
            | some fb =>
              .ok { s3 with balances := Function.update s3.balances s.config.fee_receiver fb }

/-- Embeds `execute_burn` of src/contract.rs: owner check, positive-amount check,
checked debit of the caller, then the TOTAL_BURNED update performs an
UNCHECKED `total + amount` (line 242), which traps on overflow, and
finally a checked subtraction from total_supply. -/
def execute_burn (sender : Addr) (amount : Nat) (s : TState) : TRes :=
  if sender ≠ s.config.owner then .err (.genericErr "Unauthorized") s
  else if amount = 0 then .err (.genericErr "Amount must be greater than 0") s
  else
    match checkedSub (s.balances sender) amount with
    | none => .err .overflowSub s
    | some sb =>
      let s1 : TState := { s with balances := Function.update s.balances sender sb }
      if UMAX ≤ s1.total_burned + amount then .trap s1
      else
        let s2 : TState := { s1 with total_burned := s1.total_burned + amount }
        match checkedSub s2.token_info.total_supply amount with
        | none => .err .overflowSub s2
        | some ts =>
          .ok { s2 with token_info := { s2.token_info with total_supply := ts } }

/-- Embeds `execute_mint` of src/contract.rs: fails when minting is disabled;
an absent MINT_INFO record is read as last_mint_time 0; fails while the
block time is strictly before last_mint_time + interval; otherwise stores
the new last_mint_time and performs checked credits of the caller's
balance and of total_supply. `now` is the block time in nanoseconds. -/
def execute_mint (sender : Addr) (now : Nat) (s : TState) : TRes :=
  if s.config.mint_enabled = false then .err (.genericErr "Mint is disabled") s
  else
    if now < (s.mint_info sender).getD 0 + s.config.mint_interval_seconds * NANOS_PER_SECOND then
      .err (.genericErr "You have already minted recently. Please wait.") s
    else
      let s1 : TState := { s with mint_info := Function.update s.mint_info sender (some now) }
      match checkedAdd (s1.balances sender) s.config.mint_amount with
      | none => .err .overflowAdd s1
      | some nb =>
        let s2 : TState := { s1 with balances := Function.update s1.balances sender nb }
        match checkedAdd s2.token_info.total_supply s.config.mint_amount with
        | none => .err .overflowAdd s2
        | some ts =>
          .ok { s2 with token_info := { s2.token_info with total_supply := ts } }

/-- Modelled from the spec: `execute_set_mint_amount` is dispatched from
`execute` in src/contract.rs but its definition is not among the provided
source files. Spec section 4.5: gated by caller == Config.owner
(Unauthorized otherwise) and by immutable_mode == false (ContractLocked
otherwise), then stores the new mint amount. -/
def execute_set_mint_amount (sender : Addr) (amount : Nat) (s : TState) : TRes :=
  if sender ≠ s.config.owner then .err (.genericErr "Unauthorized") s
  else if s.config.immutable_mode then .err (.genericErr "Contract is locked") s
  else .ok { s with config := { s.config with mint_amount := amount } }

/-- Modelled from the spec: `execute_set_mint_enabled` is dispatched from
`execute` in src/contract.rs but its definition is not among the provided
source files. Spec section 4.5: gated by caller == Config.owner
(Unauthorized otherwise) and by immutable_mode == false (ContractLocked
otherwise), then stores the new mint_enabled flag. -/
def execute_set_mint_enabled (sender : Addr) (enabled : Bool) (s : TState) : TRes :=
  if sender ≠ s.config.owner then .err (.genericErr "Unauthorized") s
  else if s.config.immutable_mode then .err (.genericErr "Contract is locked") s
  else .ok { s with config := { s.config with mint_enabled := enabled } }

/-- Modelled from the spec: `execute_transfer_ownership` is dispatched
from `execute` in src/contract.rs but its definition is not among the
provided source files. Spec section 4.5: gated by caller == Config.owner
(Unauthorized otherwise) and by immutable_mode == false (ContractLocked
otherwise), then stores the new owner. -/
def execute_transfer_ownership (sender newOwner : Addr) (s : TState) : TRes :=
  if sender ≠ s.config.owner then .err (.genericErr "Unauthorized") s
  else if s.config.immutable_mode then .err (.genericErr "Contract is locked") s
  else .ok { s with config := { s.config with owner := newOwner } }

/-- Modelled from the spec: `execute_lock_ownership` is dispatched from
`execute` in src/contract.rs but its definition is not among the provided
source files. Spec section 4.5: gated by caller == Config.owner
(Unauthorized otherwise); the lock operation itself is exempt from the
immutable_mode gate and sets immutable_mode = true (one-way). -/
def execute_lock_ownership (sender : Addr) (s : TState) : TRes :=
  if sender ≠ s.config.owner then .err (.genericErr "Unauthorized") s
  else .ok { s with config := { s.config with immutable_mode := true } }

/-- The token contract's `ExecuteMsg` variants. -/
inductive Msg where
  | transferMsg (recipient : Addr) (amount : Nat)
  | burnMsg (amount : Nat)
  | sendMsg (contract : Addr) (amount : Nat)
  | mintMsg
  | increaseAllowanceMsg (spender : Addr) (amount : Nat) (expires : Option Nat)
  | decreaseAllowanceMsg (spender : Addr) (amount : Nat) (expires : Option Nat)
  | transferFromMsg (owner recipient : Addr) (amount : Nat)
  | setMintAmountMsg (amount : Nat)
  | setMintEnabledMsg (enabled : Bool)
  | lockOwnershipMsg
  | transferOwnershipMsg (newOwner : Addr)

/-- Embeds `execute` of src/contract.rs: dispatch on the message; Send and the
allowance messages fall into the catch-all Unsupported arm. -/
def execute (sender : Addr) (now : Nat) (msg : Msg) (s : TState) : TRes :=
  match msg with
  | .transferMsg recipient amount => execute_transfer sender recipient amount s
  | .burnMsg amount => execute_burn sender amount s
  | .mintMsg => execute_mint sender now s
  | .setMintAmountMsg amount => execute_set_mint_amount sender amount s
  | .setMintEnabledMsg enabled => execute_set_mint_enabled sender enabled s
  | .lockOwnershipMsg => execute_lock_ownership sender s
  | .transferOwnershipMsg newOwner => execute_transfer_ownership sender newOwner s
  | .transferFromMsg owner recipient amount => execute_transfer_from sender owner recipient amount s
  | .sendMsg _ _ => .err (.genericErr "Unsupported execute message") s
  | .increaseAllowanceMsg _ _ _ => .err (.genericErr "Unsupported execute message") s
  | .decreaseAllowanceMsg _ _ _ => .err (.genericErr "Unsupported execute message") s

/-- A transfer call as the host runs it (transactional boundary). -/
def transferCall (sender recipient : Addr) (amount : Nat) (s : TState) : TRes :=
  hostCall (execute_transfer sender recipient amount) s

/-- A burn call as the host runs it (transactional boundary). -/
def burnCall (sender : Addr) (amount : Nat) (s : TState) : TRes :=
  hostCall (execute_burn sender amount) s

/-- One successful host-level execute call of the token contract. -/
def Step (s s' : TState) : Prop :=
  ∃ sender now msg, execute sender now msg s = .ok s'

/-- Reachability through any finite sequence of successful execute calls. -/
def Reach : TState → TState → Prop :=
  Relation.ReflTransGen Step

end Token

namespace Factory

/-- Embeds `TokenInfo` of src/lib.rs (the factory's parallel token record). -/
structure TokenInfo where
  name : String
  symbol : String
  supply : Nat
  fee_receiver : Addr
  creator : Addr
  mint_enabled : Bool
  immutable_mode : Bool

/-- The factory contract's storage: OWNER, TOKENS, ALL_TOKENS, TOKEN_INFO.
`owner` and `all_tokens` are Items that may never have been written. -/
structure FState where
  owner : Option Addr
  tokens : Addr → Option (List Addr)
  all_tokens : Option (List Addr)
  token_info : Addr → Option TokenInfo

/-- Embeds `ContractError` of src/lib.rs. -/
inductive CErr where
  | std (e : StdErr)
  | unauthorized
  | mintDisabled
  | contractLocked
deriving DecidableEq

/-- Outcome of running a factory handler directly against storage. -/
inductive FRes where
  | ok (s : FState)
  | err (e : CErr) (s : FState)
  | trap (s : FState)

def FRes.isOk : FRes → Bool
  | .ok _ => true
  | _ => false

def FRes.isErr : FRes → Bool
  | .err _ _ => true
  | _ => false

def FRes.isTrap : FRes → Bool
  | .trap _ => true
  | _ => false

def FRes.stateOf : FRes → FState
  | .ok s => s
  | .err _ s => s
  | .trap s => s

/-- Embeds `instantiate` of src/lib.rs: validates and stores only OWNER; TOKENS,
ALL_TOKENS and TOKEN_INFO are left unwritten. -/
def instantiate (owner : Addr) : FState :=
  { owner := some owner
    tokens := fun _ => none
    all_tokens := none
    token_info := fun _ => none }

/-- Embeds `create_token` of src/lib.rs: loads OWNER, reuses the caller's own
address as the token address, saves the new record under that key, then
`ALL_TOKENS.update` (an `Item` update, which first loads the item and
fails with NotFound when it was never written) and `TOKENS.update` (a
`Map` update on an `Option`, defaulting to the empty list). -/
def create_token (sender : Addr) (name symbol : String) (initial_supply : Nat)
    (s : FState) : FRes :=
  match s.owner with
  | none => .err (.std .notFound) s
  | some owner =>
    let record : TokenInfo :=
      { name := name, symbol := symbol, supply := initial_supply
        fee_receiver := owner, creator := sender
        mint_enabled := false, immutable_mode := false }
    let s1 : FState := { s with token_info := Function.update s.token_info sender (some record) }
    match s1.all_tokens with
    | none => .err (.std .notFound) s1
    | some allTokens =>
      let s2 : FState := { s1 with all_tokens := some (allTokens ++ [sender]) }
      let creatorList : List Addr := (s2.tokens sender).getD [] ++ [sender]
      .ok { s2 with tokens := Function.update s2.tokens sender (some creatorList) }

/-- Embeds `mint` of src/lib.rs: loads the token record (NotFound when absent),
fails when minting is disabled, then performs the UNCHECKED
`token_info.supply += 40_000_000_000_000_000` (line 155), which traps on
overflow. The caller is unused by the source (`_info`). -/
def mint (_sender tokenAddress : Addr) (s : FState) : FRes :=
  match s.token_info tokenAddress with
  | none => .err (.std .notFound) s
  | some ti =>
    if ti.mint_enabled = false then .err .mintDisabled s
    else if UMAX ≤ ti.supply + 40000000000000000 then .trap s
    else
      let ti1 : TokenInfo := { ti with supply := ti.supply + 40000000000000000 }
      .ok { s with token_info := Function.update s.token_info tokenAddress (some ti1) }

/-- Embeds `transfer` of src/lib.rs: computes `fee = amount / 100` and
`amount_after_fee = amount - fee` with the UNCHECKED `Uint128`
subtraction (line 172, trapping on underflow), then only emits two bank
messages; the factory's storage is not touched. -/
def transfer (_sender _tokenAddress _recipient : Addr) (amount : Nat) (s : FState) : FRes :=
  if amount < amount / 100 then .trap s else .ok s

/-- Embeds `set_mint_enabled` of src/lib.rs: loads the token record (NotFound
when absent), fails with ContractLocked when the record is immutable,
then stores the new flag. The caller is unused by the source (`_info`):
there is no ownership check. -/
def set_mint_enabled (_sender tokenAddress : Addr) (enabled : Bool) (s : FState) : FRes :=
  match s.token_info tokenAddress with
  | none => .err (.std .notFound) s
  | some ti =>
    if ti.immutable_mode then .err .contractLocked s
    else
      let ti1 : TokenInfo := { ti with mint_enabled := enabled }
      .ok { s with token_info := Function.update s.token_info tokenAddress (some ti1) }

/-- Embeds `lock_ownership` of src/lib.rs: loads the token record (NotFound when
absent) and unconditionally sets immutable_mode = true. The caller is
unused by the source (`_info`): there is no ownership check and no
already-locked check. -/
def lock_ownership (_sender tokenAddress : Addr) (s : FState) : FRes :=
  match s.token_info tokenAddress with
  | none => .err (.std .notFound) s
  | some ti =>
    let ti1 : TokenInfo := { ti with immutable_mode := true }
    .ok { s with token_info := Function.update s.token_info tokenAddress (some ti1) }

/-- The factory contract's `ExecuteMsg` variants. -/
inductive Msg where
  | createTokenMsg (name symbol : String) (initial_supply : Nat)
  | mintMsg (tokenAddress : Addr)
  | transferMsg (tokenAddress recipient : Addr) (amount : Nat)
  | setMintEnabledMsg (tokenAddress : Addr) (enabled : Bool)
  | lockOwnershipMsg (tokenAddress : Addr)

/-- Embeds `execute` of src/lib.rs. -/
def execute (sender : Addr) (msg : Msg) (s : FState) : FRes :=
  match msg with
  | .createTokenMsg name symbol initial_supply => create_token sender name symbol initial_supply s
  | .mintMsg tokenAddress => mint sender tokenAddress s
  | .transferMsg tokenAddress recipient amount => transfer sender tokenAddress recipient amount s
  | .setMintEnabledMsg tokenAddress enabled => set_mint_enabled sender tokenAddress enabled s
  | .lockOwnershipMsg tokenAddress => lock_ownership sender tokenAddress s

end Factory

/-! Section: Helper lemmas about the checked arithmetic -/

theorem checkedSub_eq_some {a b c : Nat} : checkedSub a b = some c ↔ b ≤ a ∧ c = a - b := by
  unfold checkedSub
  split
  · rename_i h
    simp_all
    omega
  · rename_i h
    simp_all

theorem checkedAdd_eq_some {a b c : Nat} : checkedAdd a b = some c ↔ a + b < UMAX ∧ c = a + b := by
  unfold checkedAdd
  split
  · rename_i h
    simp_all
    omega
  · rename_i h
    simp_all

theorem checkedSub_pos {a b : Nat} (h : b ≤ a) : checkedSub a b = some (a - b) := by
  unfold checkedSub
  rw [if_pos h]

theorem checkedSub_neg {a b : Nat} (h : a < b) : checkedSub a b = none := by
  unfold checkedSub
  rw [if_neg (by omega)]

theorem checkedAdd_pos {a b : Nat} (h : a + b < UMAX) : checkedAdd a b = some (a + b) := by
  unfold checkedAdd
  rw [if_pos h]

theorem checkedAdd_neg {a b : Nat} (h : UMAX ≤ a + b) : checkedAdd a b = none := by
  unfold checkedAdd
  rw [if_neg (by omega)]

theorem DEC_ONE_pos : 0 < DEC_ONE := by
  unfold DEC_ONE
  norm_num

/-- With a fee fraction of at most one, the skimmed fee never exceeds the
transferred amount. -/
theorem feeOf_le {s : Token.TState} (amount : Nat) (h : s.config.fee_percent ≤ DEC_ONE) :
    Token.feeOf s amount ≤ amount := by
  unfold Token.feeOf
  calc amount * s.config.fee_percent / DEC_ONE
      ≤ amount * DEC_ONE / DEC_ONE := by
        exact Nat.div_le_div_right (Nat.mul_le_mul_left amount h)
    _ = amount := Nat.mul_div_cancel amount DEC_ONE_pos

/-! Section: Concrete states used by counterexamples and witnesses -/

def cfg0 : Token.Config :=
  { mint_interval_seconds := 86400, fee_percent := 10 ^ 16, fee_receiver := "carol"
    immutable_mode := false, mint_enabled := false, mint_amount := 400000000000000000
    owner := "own" }

def tokenInfo0 : Token.TokenInfo :=
  { name := "Tok", symbol := "TKN", decimals := 6, total_supply := 1000 }

def st0 : Token.TState :=
  { config := cfg0, token_info := tokenInfo0, balances := fun _ => 0
    allowances := fun _ => { allowance := 0, expires := 0 }
    mint_info := fun _ => none, total_burned := 0 }

def stBurnOverflow : Token.TState :=
  { st0 with balances := Function.update (fun _ => 0) "own" 1, total_burned := UMAX - 1 }

def fToken0 : Factory.TokenInfo :=
  { name := "Tok", symbol := "TKN", supply := 5, fee_receiver := "own", creator := "tokA"
    mint_enabled := false, immutable_mode := false }

def fst0 : Factory.FState :=
  { owner := some "own", tokens := fun _ => none, all_tokens := some []
    token_info := Function.update (fun _ => none) "tokA" (some fToken0) }

def fTokenMax : Factory.TokenInfo :=
  { fToken0 with supply := UMAX - 1, mint_enabled := true }

def fstMintOverflow : Factory.FState :=
  { fst0 with token_info := Function.update (fun _ => none) "tokA" (some fTokenMax) }

def fTokenLocked : Factory.TokenInfo :=
  { fToken0 with immutable_mode := true }

def fstLocked : Factory.FState :=
  { fst0 with token_info := Function.update (fun _ => none) "tokA" (some fTokenLocked) }

def stMintEnabled : Token.TState :=
  { st0 with config := { cfg0 with mint_enabled := true } }

def balC1 : Addr → Nat :=
  Function.update (Function.update (fun _ => 0) "alice" 100) "bob" (UMAX - 1)

def stC1 : Token.TState := { st0 with balances := balC1 }

def balC2 : Addr → Nat :=
  Function.update (Function.update (fun _ => 0) "alice" 100) "carol" (UMAX - 1)

def stC2 : Token.TState := { st0 with balances := balC2 }

/-! Section: Scratch claims (easy closed ones first) -/

/-- C7: the code is not panic-free: `execute_burn` updates TOTAL_BURNED
with an unchecked `total + amount` (src/contract.rs line 242) and the
factory's `mint` updates the stored supply with an unchecked `+=`
(src/lib.rs line 155); both abort instead of returning a typed error when
the addition overflows 128 bits, contradicting the spec's "every failure
path is a typed error". -/
theorem C7_unchecked_add_traps :
    (Token.execute_burn "own" 1 stBurnOverflow).isTrap = true ∧
    (Factory.mint "bob" "tokA" fstMintOverflow).isTrap = true :=
  ⟨rfl, rfl⟩

/-- C10: the factory's `instantiate` writes only the owner, leaving the
ALL_TOKENS item unwritten, and `create_token` always fails on any state
whose ALL_TOKENS item was never written, because `Item::update` first
loads the item; so a freshly instantiated factory can never register a
token. -/
theorem C10_fresh_factory_create_fails :
    (∀ owner : Addr, (Factory.instantiate owner).all_tokens = none) ∧
    (∀ (s : Factory.FState) (sender : Addr) (name symbol : String) (supply : Nat),
      s.all_tokens = none →
      (Factory.create_token sender name symbol supply s).isOk = false) := by
  constructor
  · intro owner
    rfl
  · intro s sender name symbol supply h
    cases ho : s.owner with
    | none => simp [Factory.create_token, ho, Factory.FRes.isOk]
    | some owner => simp [Factory.create_token, ho, h, Factory.FRes.isOk]

/-- C10 witness: create_token fails on the state produced by instantiate. -/
theorem C10_fresh_factory_create_fails_witness :
    (Factory.create_token "alice" "Tok" "TKN" 1000 (Factory.instantiate "own")).isOk = false :=
  C10_fresh_factory_create_fails.2 (Factory.instantiate "own") "alice" "Tok" "TKN" 1000 rfl

/-- C6 counterexample: with minting enabled, an account with NO stored
mint record is NOT always eligible: at block time 0 (below the 86400 s
interval) the call fails with the cooldown error, because the absent
record is read as last_mint_time = 0. -/
theorem C6_counterexample :
    stMintEnabled.config.mint_enabled = true ∧
    stMintEnabled.mint_info "alice" = none ∧
    Token.execute_mint "alice" 0 stMintEnabled =
      .err (.genericErr "You have already minted recently. Please wait.") stMintEnabled :=
  ⟨rfl, rfl, rfl⟩

/-- C3 counterexample: the factory's `set_mint_enabled` performs no
ownership check: caller "bob" is not the configured owner "own", yet the
call succeeds and flips the stored mint_enabled flag. -/
theorem C3_counterexample :
    ("bob" : Addr) ≠ "own" ∧ fst0.owner = some "own" ∧
    (Factory.set_mint_enabled "bob" "tokA" true fst0).isOk = true ∧
    ((Factory.set_mint_enabled "bob" "tokA" true fst0).stateOf.token_info "tokA").map
      Factory.TokenInfo.mint_enabled = some true ∧
    (fst0.token_info "tokA").map Factory.TokenInfo.mint_enabled = some false :=
  ⟨by decide, rfl, rfl, rfl, rfl⟩

/-- C4 counterexample: on a token record whose immutable_mode is already
true, the factory's `lock_ownership` does not fail with ContractLocked:
it succeeds (even for the owner), because it performs no lock check. -/
theorem C4_counterexample :
    (fstLocked.token_info "tokA").map Factory.TokenInfo.immutable_mode = some true ∧
    (Factory.lock_ownership "own" "tokA" fstLocked).isOk = true :=
  ⟨rfl, rfl⟩

/-- C1 counterexample: sender "alice" holds the full amount and sender,
recipient and fee receiver are three distinct addresses, yet the transfer
does NOT succeed: the recipient's balance is 2^128 - 1, so the checked
credit of the net amount overflows and the call returns an error. -/
theorem C1_counterexample :
    100 ≤ stC1.balances "alice" ∧
    ("alice" : Addr) ≠ "bob" ∧ ("alice" : Addr) ≠ stC1.config.fee_receiver ∧
    ("bob" : Addr) ≠ stC1.config.fee_receiver ∧
    (Token.transferCall "alice" "bob" 100 stC1).isOk = false :=
  ⟨by decide, by decide, by decide, by decide, rfl⟩

/-- C2 counterexample: a credit CAN be applied before a failing mutation:
with the fee receiver's balance at 2^128 - 1, the recipient credit is
applied and then the fee credit overflows, so the raw storage at the
moment of the error already holds the recipient's new balance. -/
theorem C2_counterexample :
    (Token.execute_transfer "alice" "bob" 100 stC2).isErr = true ∧
    (Token.execute_transfer "alice" "bob" 100 stC2).stateOf.balances "bob" = 99 ∧
    stC2.balances "bob" = 0 :=
  ⟨rfl, rfl, rfl⟩

/-! Section: C1: fee-splitting transfer, success case -/

/-- C1 (amended): when the sender holds at least the amount, the three
addresses are distinct, balances are in the 128-bit range, and the two
credits do not overflow, the transfer succeeds; the sender loses the full
amount, the recipient gains net = amount - fee, the fee receiver gains
fee = floor(amount * fee_percent), and fee + net = amount. -/
theorem C1_transfer_correct (s : Token.TState) (sender recipient : Addr) (amount : Nat)
    (hp : s.config.fee_percent ≤ DEC_ONE)
    (hbal : amount ≤ s.balances sender)
    (hsr : sender ≠ recipient)
    (hsf : sender ≠ s.config.fee_receiver)
    (hrf : recipient ≠ s.config.fee_receiver)
    (hrecip : s.balances recipient + (amount - Token.feeOf s amount) < UMAX)
    (hfee : s.balances s.config.fee_receiver + Token.feeOf s amount < UMAX) :
    ∃ s', Token.transferCall sender recipient amount s = .ok s' ∧
      s'.balances sender = s.balances sender - amount ∧
      s'.balances recipient = s.balances recipient + (amount - Token.feeOf s amount) ∧
      s'.balances s.config.fee_receiver
        = s.balances s.config.fee_receiver + Token.feeOf s amount ∧
      Token.feeOf s amount + (amount - Token.feeOf s amount) = amount := by
  have hfle : Token.feeOf s amount ≤ amount := feeOf_le amount hp
  simp only [Token.transferCall, Token.hostCall, Token.execute_transfer,
    if_neg (show ¬ UMAX ≤ Token.feeOf s amount by omega),
    checkedSub_pos hfle, checkedSub_pos hbal,
    Function.update_noteq (Ne.symm hsr)]
  simp only [checkedAdd_pos hrecip,
    Function.update_noteq (Ne.symm hrf), Function.update_noteq (Ne.symm hsf)]
  simp only [checkedAdd_pos hfee]
  refine ⟨_, rfl, ?_, ?_, ?_, by omega⟩
  · simp only [Function.update_noteq hsf, Function.update_noteq hsr, Function.update_same]
  · simp only [Function.update_noteq hrf, Function.update_same]
  · simp only [Function.update_same]

def stW : Token.TState := Token.instantiate "alice" none "carol" "Tok" "TKN" 6 1000

/-- C1 witness: the spec's own example — initial supply 1000 to "alice",
transfer of 100 with the 1% fee: sender pays 100, recipient gets 99, fee
receiver gets 1. -/
theorem C1_transfer_correct_witness :
    ∃ s', Token.transferCall "alice" "bob" 100 stW = .ok s' ∧
      s'.balances "alice" = stW.balances "alice" - 100 ∧
      s'.balances "bob" = stW.balances "bob" + (100 - Token.feeOf stW 100) ∧
      s'.balances stW.config.fee_receiver
        = stW.balances stW.config.fee_receiver + Token.feeOf stW 100 ∧
      Token.feeOf stW 100 + (100 - Token.feeOf stW 100) = 100 :=
  C1_transfer_correct stW "alice" "bob" 100 (by decide) (by decide) (by decide)
    (by decide) (by decide) (by decide) (by decide)

/-! Section: C2: transfer atomicity -/

/-- The three balance mutations of `execute_transfer` in source order:
full debit of the sender, net credit of the recipient, fee credit of the
fee receiver. -/
def Token.transferResultBalances (sender recipient : Addr) (amount : Nat)
    (s : Token.TState) : Addr → Nat :=
  let b1 := Function.update s.balances sender (s.balances sender - amount)
  let b2 := Function.update b1 recipient (b1 recipient + (amount - Token.feeOf s amount))
  Function.update b2 s.config.fee_receiver (b2 s.config.fee_receiver + Token.feeOf s amount)

/-- Inversion of a successful raw `execute_transfer`. -/
theorem transfer_ok_inversion {s s' : Token.TState} {sender recipient : Addr} {amount : Nat}
    (h : Token.execute_transfer sender recipient amount s = .ok s') :
    amount ≤ s.balances sender ∧ Token.feeOf s amount ≤ amount ∧
    s' = { s with balances := Token.transferResultBalances sender recipient amount s } := by
  unfold Token.execute_transfer at h
  simp only [] at h
  split at h
  · exact absurd h (by simp)
  · split at h
    · exact absurd h (by simp)
    · rename_i net hnet
      split at h
      · exact absurd h (by simp)
      · rename_i sb hsb
        split at h
        · exact absurd h (by simp)
        · rename_i rb hrb
          split at h
          · exact absurd h (by simp)
          · rename_i fb hfb
            obtain ⟨hle1, hnet_eq⟩ := checkedSub_eq_some.mp hnet
            obtain ⟨hle2, hsb_eq⟩ := checkedSub_eq_some.mp hsb
            obtain ⟨hlt3, hrb_eq⟩ := checkedAdd_eq_some.mp hrb
            obtain ⟨hlt4, hfb_eq⟩ := checkedAdd_eq_some.mp hfb
            injection h with h'
            subst h' hnet_eq hsb_eq hrb_eq hfb_eq
            refine ⟨hle2, hle1, ?_⟩
            unfold Token.transferResultBalances
            rfl

/-- A successful host-level call comes from a successful raw handler run. -/
theorem hostCall_ok {f : Token.TState → Token.TRes} {s s' : Token.TState}
    (h : Token.hostCall f s = .ok s') : f s = .ok s' := by
  unfold Token.hostCall at h
  split at h
  · rename_i s1 hx
    injection h with h1
    rw [← h1]
    exact hx
  · simp at h
  · simp at h

/-- An erroring host-level call leaves the state unchanged. -/
theorem hostCall_err {f : Token.TState → Token.TRes} {s s'' : Token.TState} {e : StdErr}
    (h : Token.hostCall f s = .err e s'') : s'' = s := by
  unfold Token.hostCall at h
  split at h
  · simp at h
  · injection h with h1 h2
    exact h2.symm
  · simp at h

/-- A host-level transfer succeeds exactly when the raw handler does. -/
theorem transferCall_ok {s s' : Token.TState} {sender recipient : Addr} {amount : Nat}
    (h : Token.transferCall sender recipient amount s = .ok s') :
    Token.execute_transfer sender recipient amount s = .ok s' :=
  hostCall_ok h

/-- C2 (amended): a transfer either succeeds with all three mutations
applied in order, or the host-level call errors with the state unchanged;
an insufficient sender balance is detected before any mutation and yields
the checked-subtraction underflow error (InsufficientBalance) with the
storage untouched. (A fee-receiver credit overflow can still occur after
the debit and the recipient credit, as the C2 counterexample shows; the
host boundary then discards that partial state.) -/
theorem C2_transfer_atomicity :
    (∀ (s : Token.TState) (sender recipient : Addr) (amount : Nat),
      s.config.fee_percent ≤ DEC_ONE → amount < UMAX →
      s.balances sender < amount →
      Token.execute_transfer sender recipient amount s = .err .overflowSub s) ∧
    (∀ (s : Token.TState) (sender recipient : Addr) (amount : Nat) (e : StdErr)
      (s'' : Token.TState),
      Token.transferCall sender recipient amount s = .err e s'' → s'' = s) ∧
    (∀ (s : Token.TState) (sender recipient : Addr) (amount : Nat) (s' : Token.TState),
      Token.transferCall sender recipient amount s = .ok s' →
      amount ≤ s.balances sender ∧ Token.feeOf s amount ≤ amount ∧
      s'.balances = Token.transferResultBalances sender recipient amount s) := by
  refine ⟨?_, ?_, ?_⟩
  · intro s sender recipient amount hp hU hins
    have hfle : Token.feeOf s amount ≤ amount := feeOf_le amount hp
    simp only [Token.execute_transfer,
      if_neg (show ¬ UMAX ≤ Token.feeOf s amount by omega),
      checkedSub_pos hfle, checkedSub_neg hins]
  · intro s sender recipient amount e s'' h
    exact hostCall_err h
  · intro s sender recipient amount s' h
    obtain ⟨h1, h2, h3⟩ := transfer_ok_inversion (transferCall_ok h)
    exact ⟨h1, h2, by rw [h3]⟩

/-- C2 witness: a concrete insufficient-balance transfer errors with the
state untouched, a concrete erroring host call leaves the state equal to
the initial one, and a concrete successful call applies the three
mutations. -/
theorem C2_transfer_atomicity_witness :
    Token.execute_transfer "alice" "bob" 5 st0 = .err .overflowSub st0 ∧
    st0 = st0 ∧
    (100 ≤ stW.balances "alice" ∧ Token.feeOf stW 100 ≤ 100 ∧
      (Token.transferCall "alice" "bob" 100 stW).stateOf.balances
        = Token.transferResultBalances "alice" "bob" 100 stW) :=
  ⟨C2_transfer_atomicity.1 st0 "alice" "bob" 5 (by decide) (by decide) (by decide),
   C2_transfer_atomicity.2.1 st0 "alice" "bob" 5 .overflowSub st0 rfl,
   C2_transfer_atomicity.2.2 stW "alice" "bob" 100 _ rfl⟩

/-! Section: C8: a successful transfer preserves the involved balance sum -/

theorem cast_update (f : Addr → Nat) (k : Addr) (v : Nat) :
    (fun x => ((Function.update f k v x : Nat) : ℤ))
      = Function.update (fun x => (f x : ℤ)) k (v : ℤ) := by
  funext x
  by_cases h : x = k
  · subst h
    simp
  · simp [Function.update_noteq h]

theorem sum_update_int (f : Addr → Nat) (A : Finset Addr) {k : Addr} (hk : k ∈ A) (v : Nat) :
    (∑ x in A, ((Function.update f k v x : Nat) : ℤ))
      = (∑ x in A, (f x : ℤ)) + v - f k := by
  calc (∑ x in A, ((Function.update f k v x : Nat) : ℤ))
      = ∑ x in A, Function.update (fun x => (f x : ℤ)) k (v : ℤ) x := by rw [cast_update]
    _ = (v : ℤ) + ∑ x in A \ {k}, (f x : ℤ) := Finset.sum_update_of_mem hk _ _
    _ = (∑ x in A, (f x : ℤ)) + v - f k := by
        rw [Finset.sum_eq_sum_diff_singleton_add hk (fun x => (f x : ℤ))]
        ring

/-- Over any finite set containing the three involved addresses, the three
transfer mutations leave the total balance unchanged (the debit equals the
sum of the two credits). -/
theorem transferResultBalances_sum (s : Token.TState) (sender recipient : Addr) (amount : Nat)
    (hbal : amount ≤ s.balances sender) (hfle : Token.feeOf s amount ≤ amount)
    (A : Finset Addr) (hs : sender ∈ A) (hr : recipient ∈ A)
    (hc : s.config.fee_receiver ∈ A) :
    (∑ a in A, (Token.transferResultBalances sender recipient amount s a : ℤ))
      = ∑ a in A, (s.balances a : ℤ) := by
  simp only [Token.transferResultBalances]
  rw [sum_update_int _ A hc, sum_update_int _ A hr, sum_update_int _ A hs]
  push_cast [Nat.cast_sub hbal, Nat.cast_sub hfle]
  ring

/-- C8: a successful transfer never changes the sum of the sender,
recipient and fee-receiver balances; and a successful self-transfer with a
distinct fee receiver and a positive fee decreases the sender's balance by
exactly the fee. -/
theorem C8_transfer_sum_preserved (s : Token.TState) (sender recipient : Addr)
    (amount : Nat) (s' : Token.TState)
    (h : Token.transferCall sender recipient amount s = .ok s') :
    ((∑ a in ({sender, recipient, s.config.fee_receiver} : Finset Addr), s'.balances a)
      = ∑ a in ({sender, recipient, s.config.fee_receiver} : Finset Addr), s.balances a) ∧
    (recipient = sender → s.config.fee_receiver ≠ sender → 0 < Token.feeOf s amount →
      s'.balances sender = s.balances sender - Token.feeOf s amount ∧
      s'.balances sender < s.balances sender) := by
  obtain ⟨hbal, hfle, hs'⟩ := transfer_ok_inversion (transferCall_ok h)
  constructor
  · have hz := transferResultBalances_sum s sender recipient amount hbal hfle
      ({sender, recipient, s.config.fee_receiver} : Finset Addr)
      (by simp) (by simp) (by simp)
    rw [hs']
    exact_mod_cast hz
  · intro hrs hcs hfpos
    have hb : s'.balances sender
        = s.balances sender - amount + (amount - Token.feeOf s amount) := by
      rw [hs', hrs]
      simp only [Token.transferResultBalances,
        Function.update_noteq (Ne.symm hcs), Function.update_same]
    constructor
    · omega
    · omega

/-- C8 witness: the sum of the three involved balances is preserved by a
concrete successful transfer, and a concrete self-transfer loses exactly
the fee. -/
theorem C8_transfer_sum_preserved_witness :
    ((∑ a in ({"alice", "bob", stW.config.fee_receiver} : Finset Addr),
        (Token.transferCall "alice" "bob" 100 stW).stateOf.balances a)
      = ∑ a in ({"alice", "bob", stW.config.fee_receiver} : Finset Addr), stW.balances a) ∧
    ((Token.transferCall "alice" "alice" 100 stW).stateOf.balances "alice"
        = stW.balances "alice" - Token.feeOf stW 100 ∧
      (Token.transferCall "alice" "alice" 100 stW).stateOf.balances "alice"
        < stW.balances "alice") :=
  ⟨(C8_transfer_sum_preserved stW "alice" "bob" 100 _ rfl).1,
   (C8_transfer_sum_preserved stW "alice" "alice" 100 _ rfl).2 rfl (by decide) (by decide)⟩

/-! Section: C5: burn moves balance, total_burned and total_supply in lockstep -/

/-- Inversion of a successful raw `execute_burn`. -/
theorem burn_ok_inversion {s s' : Token.TState} {sender : Addr} {amount : Nat}
    (h : Token.execute_burn sender amount s = .ok s') :
    sender = s.config.owner ∧ 0 < amount ∧ amount ≤ s.balances sender ∧
    amount ≤ s.token_info.total_supply ∧
    s' = { s with
      balances := Function.update s.balances sender (s.balances sender - amount)
      total_burned := s.total_burned + amount
      token_info := { s.token_info with total_supply := s.token_info.total_supply - amount } } := by
  unfold Token.execute_burn at h
  simp only [] at h
  split at h
  · exact absurd h (by simp)
  · rename_i hown
    split at h
    · exact absurd h (by simp)
    · rename_i hz
      split at h
      · exact absurd h (by simp)
      · rename_i sb hsb
        split at h
        · exact absurd h (by simp)
        · rename_i hburn
          split at h
          · exact absurd h (by simp)
          · rename_i ts hts
            obtain ⟨hle1, hsb_eq⟩ := checkedSub_eq_some.mp hsb
            obtain ⟨hle2, hts_eq⟩ := checkedSub_eq_some.mp hts
            injection h with h'
            subst h' hsb_eq hts_eq
            exact ⟨not_not.mp hown, Nat.pos_of_ne_zero hz, hle1, hle2, rfl⟩

/-- A host-level call that does not succeed leaves the state unchanged. -/
theorem hostCall_not_ok {f : Token.TState → Token.TRes} {s : Token.TState}
    (h : (Token.hostCall f s).isOk = false) : (Token.hostCall f s).stateOf = s := by
  unfold Token.hostCall at h ⊢
  cases hx : f s with
  | ok s1 =>
    rw [hx] at h
    simp [Token.TRes.isOk] at h
  | err e1 s1 => rfl
  | trap s1 => rfl

/-- C5: a successful burn of n by the owner decreases the caller's
balance by n, increases total_burned by n and decreases total_supply by n;
a non-successful host-level burn call leaves the state unchanged; and an
insufficient balance is detected before any mutation, producing the
checked-subtraction underflow error on the untouched state. -/
theorem C5_burn_atomic :
    (∀ (s : Token.TState) (sender : Addr) (amount : Nat) (s' : Token.TState),
      Token.burnCall sender amount s = .ok s' →
      sender = s.config.owner ∧ 0 < amount ∧
      amount ≤ s.balances sender ∧ amount ≤ s.token_info.total_supply ∧
      s'.balances sender = s.balances sender - amount ∧
      s'.total_burned = s.total_burned + amount ∧
      s'.token_info.total_supply = s.token_info.total_supply - amount) ∧
    (∀ (s : Token.TState) (sender : Addr) (amount : Nat),
      (Token.burnCall sender amount s).isOk = false →
      (Token.burnCall sender amount s).stateOf = s) ∧
    (∀ (s : Token.TState) (sender : Addr) (amount : Nat),
      sender = s.config.owner → 0 < amount → s.balances sender < amount →
      Token.execute_burn sender amount s = .err .overflowSub s) := by
  refine ⟨?_, ?_, ?_⟩
  · intro s sender amount s' h
    obtain ⟨hown, hpos, hle1, hle2, hs'⟩ := burn_ok_inversion (hostCall_ok h)
    subst hs'
    refine ⟨hown, hpos, hle1, hle2, ?_, rfl, rfl⟩
    simp [Function.update_same]
  · intro s sender amount h
    exact hostCall_not_ok h
  · intro s sender amount hown hpos hins
    simp only [Token.execute_burn,
      if_neg (show ¬ sender ≠ s.config.owner by simp [hown]),
      if_neg (show ¬ amount = 0 by omega),
      checkedSub_neg hins]

def stBurn : Token.TState := { st0 with balances := Function.update (fun _ => 0) "own" 10 }

/-- C5 witness: a concrete successful burn applies the three deltas, a
concrete unauthorized burn leaves the state unchanged, and a concrete
over-balance burn errors on the untouched state. -/
theorem C5_burn_atomic_witness :
    ("own" = stBurn.config.owner ∧ 0 < 4 ∧
      4 ≤ stBurn.balances "own" ∧ 4 ≤ stBurn.token_info.total_supply ∧
      (Token.burnCall "own" 4 stBurn).stateOf.balances "own" = stBurn.balances "own" - 4 ∧
      (Token.burnCall "own" 4 stBurn).stateOf.total_burned = stBurn.total_burned + 4 ∧
      (Token.burnCall "own" 4 stBurn).stateOf.token_info.total_supply
        = stBurn.token_info.total_supply - 4) ∧
    (Token.burnCall "bob" 4 stBurn).stateOf = stBurn ∧
    Token.execute_burn "own" 20 stBurn = .err .overflowSub stBurn :=
  ⟨C5_burn_atomic.1 stBurn "own" 4 _ rfl,
   C5_burn_atomic.2.1 stBurn "bob" 4 rfl,
   C5_burn_atomic.2.2 stBurn "own" 20 rfl (by decide) (by decide)⟩

/-! Section: C6: mint gating by flag and cooldown -/

/-- C6 (amended): mint fails with the disabled error whenever the flag is
off, regardless of time; when enabled, eligibility is computed from the
stored last_mint_time with an absent record read as 0 — so a fresh
account is eligible only once the block time reaches the interval — and a
call strictly before last + interval fails with the cooldown error while
a call at or after last + interval succeeds (provided the two checked
credits do not overflow), storing the new last_mint_time and crediting
the balance and total_supply by mint_amount. -/
theorem C6_mint_gate :
    (∀ (s : Token.TState) (sender : Addr) (now : Nat),
      s.config.mint_enabled = false →
      Token.execute_mint sender now s = .err (.genericErr "Mint is disabled") s) ∧
    (∀ (s : Token.TState) (sender : Addr) (now : Nat),
      s.config.mint_enabled = true →
      now < (s.mint_info sender).getD 0
          + s.config.mint_interval_seconds * NANOS_PER_SECOND →
      Token.execute_mint sender now s
        = .err (.genericErr "You have already minted recently. Please wait.") s) ∧
    (∀ (s : Token.TState) (sender : Addr) (now : Nat),
      s.config.mint_enabled = true →
      (s.mint_info sender).getD 0
          + s.config.mint_interval_seconds * NANOS_PER_SECOND ≤ now →
      s.balances sender + s.config.mint_amount < UMAX →
      s.token_info.total_supply + s.config.mint_amount < UMAX →
      ∃ s', Token.execute_mint sender now s = .ok s' ∧
        s'.mint_info sender = some now ∧
        s'.balances sender = s.balances sender + s.config.mint_amount ∧
        s'.token_info.total_supply
          = s.token_info.total_supply + s.config.mint_amount) := by
  refine ⟨?_, ?_, ?_⟩
  · intro s sender now hdis
    simp only [Token.execute_mint, if_pos hdis]
  · intro s sender now hen hlt
    simp only [Token.execute_mint,
      if_neg (show ¬ s.config.mint_enabled = false by simp [hen]),
      if_pos hlt]
  · intro s sender now hen hle h3 h4
    simp only [Token.execute_mint,
      if_neg (show ¬ s.config.mint_enabled = false by simp [hen]),
      if_neg (show ¬ now < (s.mint_info sender).getD 0
          + s.config.mint_interval_seconds * NANOS_PER_SECOND by omega)]
    simp only [checkedAdd_pos h3, checkedAdd_pos h4]
    refine ⟨_, rfl, ?_, ?_, rfl⟩
    · simp [Function.update_same]
    · simp [Function.update_same]

def stMint0 : Token.TState :=
  { stMintEnabled with mint_info := Function.update (fun _ => none) "alice" (some 0) }

/-- C6 witness: with the 86400 s interval, minting is refused while
disabled, a call at t = 86399 s after a mint recorded at t = 0 fails with
the cooldown error, and a call at t = 86400 s succeeds with the expected
credits. -/
theorem C6_mint_gate_witness :
    Token.execute_mint "alice" 0 st0 = .err (.genericErr "Mint is disabled") st0 ∧
    Token.execute_mint "alice" (86399 * NANOS_PER_SECOND) stMint0
      = .err (.genericErr "You have already minted recently. Please wait.") stMint0 ∧
    (∃ s', Token.execute_mint "alice" (86400 * NANOS_PER_SECOND) stMint0 = .ok s' ∧
      s'.mint_info "alice" = some (86400 * NANOS_PER_SECOND) ∧
      s'.balances "alice" = stMint0.balances "alice" + stMint0.config.mint_amount ∧
      s'.token_info.total_supply
        = stMint0.token_info.total_supply + stMint0.config.mint_amount) :=
  ⟨C6_mint_gate.1 st0 "alice" 0 rfl,
   C6_mint_gate.2.1 stMint0 "alice" (86399 * NANOS_PER_SECOND) rfl (by decide),
   C6_mint_gate.2.2 stMint0 "alice" (86400 * NANOS_PER_SECOND) rfl (by decide)
     (by decide) (by decide)⟩

/-! Section: Governance: inversion lemmas and the lock invariant -/

theorem set_mint_amount_ok_inversion {s s' : Token.TState} {sender : Addr} {amount : Nat}
    (h : Token.execute_set_mint_amount sender amount s = .ok s') :
    sender = s.config.owner ∧ s.config.immutable_mode = false ∧
    s' = { s with config := { s.config with mint_amount := amount } } := by
  unfold Token.execute_set_mint_amount at h
  split at h
  · exact absurd h (by simp)
  · rename_i hown
    split at h
    · exact absurd h (by simp)
    · rename_i hlock
      injection h with h'
      exact ⟨not_not.mp hown, by simpa using hlock, h'.symm⟩

theorem set_mint_enabled_ok_inversion {s s' : Token.TState} {sender : Addr} {enabled : Bool}
    (h : Token.execute_set_mint_enabled sender enabled s = .ok s') :
    sender = s.config.owner ∧ s.config.immutable_mode = false ∧
    s' = { s with config := { s.config with mint_enabled := enabled } } := by
  unfold Token.execute_set_mint_enabled at h
  split at h
  · exact absurd h (by simp)
  · rename_i hown
    split at h
    · exact absurd h (by simp)
    · rename_i hlock
      injection h with h'
      exact ⟨not_not.mp hown, by simpa using hlock, h'.symm⟩

theorem transfer_ownership_ok_inversion {s s' : Token.TState} {sender newOwner : Addr}
    (h : Token.execute_transfer_ownership sender newOwner s = .ok s') :
    sender = s.config.owner ∧ s.config.immutable_mode = false ∧
    s' = { s with config := { s.config with owner := newOwner } } := by
  unfold Token.execute_transfer_ownership at h
  split at h
  · exact absurd h (by simp)
  · rename_i hown
    split at h
    · exact absurd h (by simp)
    · rename_i hlock
      injection h with h'
      exact ⟨not_not.mp hown, by simpa using hlock, h'.symm⟩

theorem lock_ownership_ok_inversion {s s' : Token.TState} {sender : Addr}
    (h : Token.execute_lock_ownership sender s = .ok s') :
    sender = s.config.owner ∧
    s' = { s with config := { s.config with immutable_mode := true } } := by
  unfold Token.execute_lock_ownership at h
  split at h
  · exact absurd h (by simp)
  · rename_i hown
    injection h with h'
    exact ⟨not_not.mp hown, h'.symm⟩

theorem mint_ok_config {s s' : Token.TState} {sender : Addr} {now : Nat}
    (h : Token.execute_mint sender now s = .ok s') : s'.config = s.config := by
  unfold Token.execute_mint at h
  simp only [] at h
  split at h
  · exact absurd h (by simp)
  · split at h
    · exact absurd h (by simp)
    · split at h
      · exact absurd h (by simp)
      · rename_i nb hnb
        split at h
        · exact absurd h (by simp)
        · rename_i ts hts
          injection h with h'
          subst h'
          rfl

theorem transfer_from_ok_config {s s' : Token.TState} {sender owner recipient : Addr}
    {amount : Nat}
    (h : Token.execute_transfer_from sender owner recipient amount s = .ok s') :
    s'.config = s.config := by
  unfold Token.execute_transfer_from at h
  simp only [] at h
  split at h
  · exact absurd h (by simp)
  · split at h
    · exact absurd h (by simp)
    · rename_i net hnet
      split at h
      · exact absurd h (by simp)
      · rename_i rem hrem
        split at h
        · exact absurd h (by simp)
        · rename_i ob hob
          split at h
          · exact absurd h (by simp)
          · rename_i rb hrb
            split at h
            · exact absurd h (by simp)
            · rename_i fb hfb
              injection h with h'
              subst h'
              rfl

/-- Re-locking an already locked config is the identity. -/
theorem lock_config_self {c : Token.Config} (h : c.immutable_mode = true) :
    { c with immutable_mode := true } = c := by
  cases c
  simp_all

/-- Every successful execute step of the token contract preserves a set
immutable_mode flag. -/
theorem step_preserves_lock {s s' : Token.TState} (h : Token.Step s s')
    (hm : s.config.immutable_mode = true) : s'.config.immutable_mode = true := by
  obtain ⟨sender, now, msg, hex⟩ := h
  cases msg with
  | transferMsg r a =>
    obtain ⟨_, _, hs'⟩ :=
      transfer_ok_inversion (show Token.execute_transfer sender r a s = .ok s' from hex)
    rw [hs']
    exact hm
  | burnMsg a =>
    obtain ⟨_, _, _, _, hs'⟩ :=
      burn_ok_inversion (show Token.execute_burn sender a s = .ok s' from hex)
    rw [hs']
    exact hm
  | mintMsg =>
    rw [mint_ok_config (show Token.execute_mint sender now s = .ok s' from hex)]
    exact hm
  | transferFromMsg o r a =>
    rw [transfer_from_ok_config
      (show Token.execute_transfer_from sender o r a s = .ok s' from hex)]
    exact hm
  | setMintAmountMsg a =>
    obtain ⟨_, hfalse, _⟩ := set_mint_amount_ok_inversion
      (show Token.execute_set_mint_amount sender a s = .ok s' from hex)
    rw [hm] at hfalse
    cases hfalse
  | setMintEnabledMsg b =>
    obtain ⟨_, hfalse, _⟩ := set_mint_enabled_ok_inversion
      (show Token.execute_set_mint_enabled sender b s = .ok s' from hex)
    rw [hm] at hfalse
    cases hfalse
  | transferOwnershipMsg o =>
    obtain ⟨_, hfalse, _⟩ := transfer_ownership_ok_inversion
      (show Token.execute_transfer_ownership sender o s = .ok s' from hex)
    rw [hm] at hfalse
    cases hfalse
  | lockOwnershipMsg =>
    obtain ⟨_, hs'⟩ := lock_ownership_ok_inversion
      (show Token.execute_lock_ownership sender s = .ok s' from hex)
    rw [hs']
  | sendMsg c a =>
    exact absurd (show Token.TRes.err (.genericErr "Unsupported execute message") s
      = .ok s' from hex) (by simp)
  | increaseAllowanceMsg sp a e =>
    exact absurd (show Token.TRes.err (.genericErr "Unsupported execute message") s
      = .ok s' from hex) (by simp)
  | decreaseAllowanceMsg sp a e =>
    exact absurd (show Token.TRes.err (.genericErr "Unsupported execute message") s
      = .ok s' from hex) (by simp)

/-- The set immutable_mode flag survives any finite sequence of
successful execute calls. -/
theorem reach_preserves_lock {s s' : Token.TState} (h : Token.Reach s s')
    (hm : s.config.immutable_mode = true) : s'.config.immutable_mode = true := by
  induction h with
  | refl => exact hm
  | tail h1 h2 ih => exact step_preserves_lock h2 ih

/-! Section: C3: owner gating of burn and governance -/

/-- C3 (amended): on the token contract, burn and every governance
operation called by a non-owner fail with Unauthorized on the untouched
state, and the governance operations succeed only for the owner (and,
except for lock_ownership itself, only while immutable_mode is false);
the factory's set_mint_enabled and lock_ownership, by contrast, ignore
the caller entirely (no ownership check). -/
theorem C3_owner_gating :
    (∀ (s : Token.TState) (sender : Addr) (amount : Nat), sender ≠ s.config.owner →
      Token.execute_burn sender amount s = .err (.genericErr "Unauthorized") s) ∧
    (∀ (s : Token.TState) (sender : Addr) (amount : Nat), sender ≠ s.config.owner →
      Token.execute_set_mint_amount sender amount s = .err (.genericErr "Unauthorized") s) ∧
    (∀ (s : Token.TState) (sender : Addr) (enabled : Bool), sender ≠ s.config.owner →
      Token.execute_set_mint_enabled sender enabled s = .err (.genericErr "Unauthorized") s) ∧
    (∀ (s : Token.TState) (sender newOwner : Addr), sender ≠ s.config.owner →
      Token.execute_transfer_ownership sender newOwner s
        = .err (.genericErr "Unauthorized") s) ∧
    (∀ (s : Token.TState) (sender : Addr), sender ≠ s.config.owner →
      Token.execute_lock_ownership sender s = .err (.genericErr "Unauthorized") s) ∧
    (∀ (s s' : Token.TState) (sender : Addr) (amount : Nat),
      Token.execute_set_mint_amount sender amount s = .ok s' →
      sender = s.config.owner ∧ s.config.immutable_mode = false) ∧
    (∀ (s s' : Token.TState) (sender : Addr) (enabled : Bool),
      Token.execute_set_mint_enabled sender enabled s = .ok s' →
      sender = s.config.owner ∧ s.config.immutable_mode = false) ∧
    (∀ (s s' : Token.TState) (sender newOwner : Addr),
      Token.execute_transfer_ownership sender newOwner s = .ok s' →
      sender = s.config.owner ∧ s.config.immutable_mode = false) ∧
    (∀ (s s' : Token.TState) (sender : Addr),
      Token.execute_lock_ownership sender s = .ok s' → sender = s.config.owner) ∧
    (∀ (s : Factory.FState) (sender sender' tokenAddress : Addr) (enabled : Bool),
      Factory.set_mint_enabled sender tokenAddress enabled s
        = Factory.set_mint_enabled sender' tokenAddress enabled s) ∧
    (∀ (s : Factory.FState) (sender sender' tokenAddress : Addr),
      Factory.lock_ownership sender tokenAddress s
        = Factory.lock_ownership sender' tokenAddress s) := by
  refine ⟨?_, ?_, ?_, ?_, ?_, ?_, ?_, ?_, ?_, ?_, ?_⟩
  · intro s sender amount hne
    simp only [Token.execute_burn, if_pos hne]
  · intro s sender amount hne
    simp only [Token.execute_set_mint_amount, if_pos hne]
  · intro s sender enabled hne
    simp only [Token.execute_set_mint_enabled, if_pos hne]
  · intro s sender newOwner hne
    simp only [Token.execute_transfer_ownership, if_pos hne]
  · intro s sender hne
    simp only [Token.execute_lock_ownership, if_pos hne]
  · intro s s' sender amount h
    obtain ⟨h1, h2, _⟩ := set_mint_amount_ok_inversion h
    exact ⟨h1, h2⟩
  · intro s s' sender enabled h
    obtain ⟨h1, h2, _⟩ := set_mint_enabled_ok_inversion h
    exact ⟨h1, h2⟩
  · intro s s' sender newOwner h
    obtain ⟨h1, h2, _⟩ := transfer_ownership_ok_inversion h
    exact ⟨h1, h2⟩
  · intro s s' sender h
    exact (lock_ownership_ok_inversion h).1
  · intro s sender sender' tokenAddress enabled
    rfl
  · intro s sender sender' tokenAddress
    rfl

/-- C3 witness: concrete unauthorized calls by "bob" error on the
untouched state, and concrete successful governance calls by the owner of
an unlocked state come from the owner with the lock not set. -/
theorem C3_owner_gating_witness :
    Token.execute_burn "bob" 5 st0 = .err (.genericErr "Unauthorized") st0 ∧
    Token.execute_set_mint_amount "bob" 5 st0 = .err (.genericErr "Unauthorized") st0 ∧
    Token.execute_set_mint_enabled "bob" true st0 = .err (.genericErr "Unauthorized") st0 ∧
    Token.execute_transfer_ownership "bob" "eve" st0 = .err (.genericErr "Unauthorized") st0 ∧
    Token.execute_lock_ownership "bob" st0 = .err (.genericErr "Unauthorized") st0 ∧
    ("own" = st0.config.owner ∧ st0.config.immutable_mode = false) ∧
    ("own" = st0.config.owner ∧ st0.config.immutable_mode = false) ∧
    ("own" = st0.config.owner ∧ st0.config.immutable_mode = false) ∧
    "own" = st0.config.owner :=
  ⟨C3_owner_gating.1 st0 "bob" 5 (by decide),
   C3_owner_gating.2.1 st0 "bob" 5 (by decide),
   C3_owner_gating.2.2.1 st0 "bob" true (by decide),
   C3_owner_gating.2.2.2.1 st0 "bob" "eve" (by decide),
   C3_owner_gating.2.2.2.2.1 st0 "bob" (by decide),
   C3_owner_gating.2.2.2.2.2.1 st0 _ "own" 5 rfl,
   C3_owner_gating.2.2.2.2.2.2.1 st0 _ "own" true rfl,
   C3_owner_gating.2.2.2.2.2.2.2.1 st0 _ "own" "eve" rfl,
   C3_owner_gating.2.2.2.2.2.2.2.2.1 st0 _ "own" rfl⟩

/-! Section: C4: the lock is terminal -/

def stLockedT : Token.TState := { st0 with config := { cfg0 with immutable_mode := true } }

/-- C4 (amended): once immutable_mode is true it stays true in every
reachable later state of the token contract; every subsequent
set_mint_amount, set_mint_enabled or transfer_ownership call by the owner
fails with ContractLocked on the untouched state (non-owners get
Unauthorized, as proved for C3); lock_ownership itself does not fail —
called by the owner it succeeds again, leaving the state unchanged. -/
theorem C4_lock_terminal :
    (∀ (s s' : Token.TState), s.config.immutable_mode = true → Token.Reach s s' →
      s'.config.immutable_mode = true) ∧
    (∀ (s : Token.TState) (amount : Nat), s.config.immutable_mode = true →
      Token.execute_set_mint_amount s.config.owner amount s
        = .err (.genericErr "Contract is locked") s) ∧
    (∀ (s : Token.TState) (enabled : Bool), s.config.immutable_mode = true →
      Token.execute_set_mint_enabled s.config.owner enabled s
        = .err (.genericErr "Contract is locked") s) ∧
    (∀ (s : Token.TState) (newOwner : Addr), s.config.immutable_mode = true →
      Token.execute_transfer_ownership s.config.owner newOwner s
        = .err (.genericErr "Contract is locked") s) ∧
    (∀ (s : Token.TState), s.config.immutable_mode = true →
      Token.execute_lock_ownership s.config.owner s = .ok s) := by
  refine ⟨?_, ?_, ?_, ?_, ?_⟩
  · intro s s' hm hr
    exact reach_preserves_lock hr hm
  · intro s amount hm
    simp only [Token.execute_set_mint_amount,
      if_neg (show ¬ s.config.owner ≠ s.config.owner by simp), if_pos hm]
  · intro s enabled hm
    simp only [Token.execute_set_mint_enabled,
      if_neg (show ¬ s.config.owner ≠ s.config.owner by simp), if_pos hm]
  · intro s newOwner hm
    simp only [Token.execute_transfer_ownership,
      if_neg (show ¬ s.config.owner ≠ s.config.owner by simp), if_pos hm]
  · intro s hm
    simp only [Token.execute_lock_ownership,
      if_neg (show ¬ s.config.owner ≠ s.config.owner by simp)]
    rw [lock_config_self hm]

/-- C4 witness: on a concretely locked token state, the three config
mutations by the owner fail with ContractLocked, lock_ownership succeeds
idempotently, and the flag survives the empty reachability sequence. -/
theorem C4_lock_terminal_witness :
    stLockedT.config.immutable_mode = true ∧
    Token.execute_set_mint_amount stLockedT.config.owner 7 stLockedT
      = .err (.genericErr "Contract is locked") stLockedT ∧
    Token.execute_set_mint_enabled stLockedT.config.owner true stLockedT
      = .err (.genericErr "Contract is locked") stLockedT ∧
    Token.execute_transfer_ownership stLockedT.config.owner "eve" stLockedT
      = .err (.genericErr "Contract is locked") stLockedT ∧
    Token.execute_lock_ownership stLockedT.config.owner stLockedT = .ok stLockedT :=
  ⟨C4_lock_terminal.1 stLockedT stLockedT rfl Relation.ReflTransGen.refl,
   C4_lock_terminal.2.1 stLockedT 7 rfl,
   C4_lock_terminal.2.2.1 stLockedT true rfl,
   C4_lock_terminal.2.2.2.1 stLockedT "eve" rfl,
   C4_lock_terminal.2.2.2.2 stLockedT rfl⟩

/-! Section: C9: create_token keys the record by the caller's address -/

/-- The token record `create_token` stores for caller `sender` under the
factory owner `own`. -/
def Factory.createdRecord (own sender : Addr) (name symbol : String) (supply : Nat) :
    Factory.TokenInfo :=
  { name := name, symbol := symbol, supply := supply, fee_receiver := own
    creator := sender, mint_enabled := false, immutable_mode := false }

/-- Inversion of a successful `create_token`: the new record is keyed by
the caller's own address and that address is appended to the per-creator
and global lists. -/
theorem create_token_ok_inversion {s s' : Factory.FState} {sender : Addr}
    {name symbol : String} {supply : Nat}
    (h : Factory.create_token sender name symbol supply s = .ok s') :
    ∃ own allTokens, s.owner = some own ∧ s.all_tokens = some allTokens ∧
      s' = { s with
        token_info := Function.update s.token_info sender (some (Factory.createdRecord own sender name symbol supply))
        all_tokens := some (allTokens ++ [sender])
        tokens := Function.update s.tokens sender (some ((s.tokens sender).getD [] ++ [sender])) } := by
  unfold Factory.create_token at h
  simp only [] at h
  split at h
  · exact absurd h (by simp)
  · rename_i own hown
    split at h
    · exact absurd h (by simp)
    · rename_i allTokens hall
      injection h with h'
      subst h'
      exact ⟨own, allTokens, hown, hall, rfl⟩

/-- C9: create_token keys the new token record by the caller's own
address and appends that address to the per-creator and global lists; a
second successful create_token by the same caller overwrites the prior
record (the stored record afterwards is the second one). -/
theorem C9_create_token_keying :
    (∀ (s : Factory.FState) (sender : Addr) (name symbol : String) (supply : Nat)
      (s' : Factory.FState),
      Factory.create_token sender name symbol supply s = .ok s' →
      ∃ own allTokens, s.owner = some own ∧ s.all_tokens = some allTokens ∧
        s'.token_info = Function.update s.token_info sender (some (Factory.createdRecord own sender name symbol supply)) ∧
        s'.tokens sender = some ((s.tokens sender).getD [] ++ [sender]) ∧
        s'.all_tokens = some (allTokens ++ [sender])) ∧
    (∀ (s s1 s2 : Factory.FState) (sender : Addr) (n1 sy1 : String) (a1 : Nat)
      (n2 sy2 : String) (a2 : Nat),
      Factory.create_token sender n1 sy1 a1 s = .ok s1 →
      Factory.create_token sender n2 sy2 a2 s1 = .ok s2 →
      ∃ own, s2.token_info sender = some (Factory.createdRecord own sender n2 sy2 a2)) := by
  constructor
  · intro s sender name symbol supply s' h
    obtain ⟨own, allTokens, hown, hall, hs'⟩ := create_token_ok_inversion h
    subst hs'
    exact ⟨own, allTokens, hown, hall, rfl, by simp [Function.update_same], rfl⟩
  · intro s s1 s2 sender n1 sy1 a1 n2 sy2 a2 h1 h2
    obtain ⟨own2, l2, ho2, ha2, hs2⟩ := create_token_ok_inversion h2
    refine ⟨own2, ?_⟩
    rw [hs2]
    simp [Function.update_same]

/-- C9 witness: on a factory state whose ALL_TOKENS item exists, a
concrete create_token by "alice" stores the record under the key "alice"
and appends "alice" to both lists, and a second create_token by "alice"
leaves the second record stored under that key. -/
theorem C9_create_token_keying_witness :
    (∃ own allTokens, fst0.owner = some own ∧ fst0.all_tokens = some allTokens ∧
      (Factory.create_token "alice" "Tok" "TKN" 1000 fst0).stateOf.token_info
        = Function.update fst0.token_info "alice" (some (Factory.createdRecord own "alice" "Tok" "TKN" 1000)) ∧
      (Factory.create_token "alice" "Tok" "TKN" 1000 fst0).stateOf.tokens "alice"
        = some ((fst0.tokens "alice").getD [] ++ ["alice"]) ∧
      (Factory.create_token "alice" "Tok" "TKN" 1000 fst0).stateOf.all_tokens
        = some (allTokens ++ ["alice"])) ∧
    (∃ own, (Factory.create_token "alice" "T2" "S2" 7
        (Factory.create_token "alice" "T1" "S1" 5 fst0).stateOf).stateOf.token_info "alice"
      = some (Factory.createdRecord own "alice" "T2" "S2" 7)) := by
  constructor
  · exact C9_create_token_keying.1 fst0 "alice" "Tok" "TKN" 1000
      ((Factory.create_token "alice" "Tok" "TKN" 1000 fst0).stateOf) rfl
  · exact C9_create_token_keying.2 fst0
      ((Factory.create_token "alice" "T1" "S1" 5 fst0).stateOf)
      ((Factory.create_token "alice" "T2" "S2" 7
        (Factory.create_token "alice" "T1" "S1" 5 fst0).stateOf).stateOf)
      "alice" "T1" "S1" 5 "T2" "S2" 7 rfl rfl
